import Mathlib

/-!
Shallow embedding of `scripts/simple_pdf_server.py`.

The script wraps the PyMuPDF (`fitz`) library: `parse_pdf_simple` opens a
document, walks its pages and layout blocks, and reshapes them into a
page-indexed structure; the Flask handler `parse_pdf` exposes this behind
`POST /parse`.

The library is modelled as an oracle `lib : String → Except String Doc`
(what `fitz.open` returns or raises for a given path), and each page's
`page.get_text("dict")["blocks"]` call as a field
`get_text : Except String (List Block)` (the block list, or the message of
the exception the call raises).  Resource handling (`doc.close()`) is made
observable by threading explicit `opened`/`closed` flags through the
extraction function.  Numeric geometry is modelled with `ℚ`.
-/

/-- A span dict as produced by the library: only its `"text"` entry is read,
via `span.get("text", "")` (`none` models an absent key). -/
structure Span where
  text : Option String
deriving Repr, DecidableEq

/-- A line dict: only its `"spans"` entry is read, via `line.get("spans", [])`. -/
structure Line where
  spans : Option (List Span)
deriving Repr, DecidableEq

/-- A block dict from `page.get_text("dict")["blocks"]`: the script reads its
`"type"` entry (via `block.get("type")`), its `"bbox"` entry (a sequence of
numbers, converted with `list(bbox)`), and its `"lines"` entry
(via `block.get("lines", [])`). -/
structure Block where
  btype : Option Nat
  bbox : List ℚ
  lines : Option (List Line)
deriving Repr, DecidableEq

/-- A page: `page.rect` yields `width` and `height`; `get_text` is the outcome
of `page.get_text("dict")["blocks"]` — the raw block list, or the message of
the exception that call raises. -/
structure Page where
  width : ℚ
  height : ℚ
  get_text : Except String (List Block)
deriving Repr

/-- An open document: `len(doc)` is `pages.length` and `doc[i]` is `pages[i]`. -/
structure Doc where
  pages : List Page
deriving Repr

/-- One emitted element dict.  `content` is `none` when the dict carries no
`"content"` key (image blocks). -/
structure Element where
  id : String
  etype : String
  bbox : List ℚ
  pageIndex : Nat
  content : Option String
deriving Repr, DecidableEq

/-- One entry of the result's `pages` list. -/
structure PageOut where
  pageIndex : Nat
  width : ℚ
  height : ℚ
  blocks : List Element
deriving Repr, DecidableEq

/-- The success value of `parse_pdf_simple`. -/
structure ParseResult where
  pageCount : Nat
  pages : List PageOut
deriving Repr, DecidableEq

/-- The f-string `f"el_{pageNumber}_{idx}"`. -/
def elId (pageNumber idx : Nat) : String :=
  "el_" ++ toString pageNumber ++ "_" ++ toString idx

/-- The accumulating text loop of a text block:
`text = ""`, then for each line of `block.get("lines", [])`, for each span of
`line.get("spans", [])`, `text += span.get("text", "")`, and after each line
`text += "\n"`. -/
def blockText (block : Block) : String :=
  (block.lines.getD []).foldl
    (fun t line =>
      ((line.spans.getD []).foldl (fun t2 s => t2 ++ s.text.getD "") t) ++ "\n")
    ""

/-- Drop leading whitespace characters from a character list. -/
def dropWhiteLeft : List Char → List Char
  | [] => []
  | c :: rest => if c.isWhitespace then dropWhiteLeft rest else c :: rest

/-- Python's `str.strip()`: remove leading and trailing whitespace (whitespace
as modelled by `Char.isWhitespace`). -/
def pyStrip (s : String) : String :=
  ⟨((dropWhiteLeft s.data).reverse |> dropWhiteLeft).reverse⟩

/-- The body of the block loop for one block at zero-based position `idx`:
a text block (`block.get("type") == 0`) is emitted with its trimmed
concatenated text when that text is non-empty; an image block
(`block.get("type") == 1`) is emitted with no `content`; anything else is
skipped. -/
def processBlock (page_num idx : Nat) (block : Block) : Option Element :=
  if block.btype = some 0 then
    let text := blockText block
    if pyStrip text ≠ "" then
      some { id := elId (page_num + 1) idx
             etype := "text"
             bbox := block.bbox
             pageIndex := page_num + 1
             content := some (pyStrip text) }
    else none
  else if block.btype = some 1 then
    some { id := elId (page_num + 1) idx
           etype := "image"
           bbox := block.bbox
           pageIndex := page_num + 1
           content := none }
  else none

/-- The `for idx, block in enumerate(blocks)` loop, accumulating `elements`;
`idx` starts at `start`. -/
def processBlocks (page_num : Nat) : Nat → List Block → List Element
  | _, [] => []
  | idx, b :: rest =>
    match processBlock page_num idx b with
    | some e => e :: processBlocks page_num (idx + 1) rest
    | none => processBlocks page_num (idx + 1) rest

/-- Processing of one page `doc[page_num]`: read `page.rect`, call
`page.get_text("dict")["blocks"]` (which may raise), run the block loop. -/
def processPage (page_num : Nat) (page : Page) : Except String PageOut :=
  match page.get_text with
  | .error e => .error e
  | .ok blocks =>
    .ok { pageIndex := page_num + 1
          width := page.width
          height := page.height
          blocks := processBlocks page_num 0 blocks }

/-- The `for page_num in range(len(doc))` loop: pages are processed in order
and the first exception aborts the whole call. -/
def processPages : Nat → List Page → Except String (List PageOut)
  | _, [] => .ok []
  | page_num, p :: rest =>
    match processPage page_num p with
    | .error e => .error e
    | .ok out =>
      match processPages (page_num + 1) rest with
      | .error e => .error e
      | .ok outs => .ok (out :: outs)

/-- Outcome of one `parse_pdf_simple` call: its result (the returned structure
or the message of the raised exception), together with whether `fitz.open`
succeeded (`opened`) and whether `doc.close()` was executed (`closed`). -/
structure ExtractOutcome where
  result : Except String ParseResult
  opened : Bool
  closed : Bool
deriving Repr

/-- `parse_pdf_simple(pdf_path)`: `doc = fitz.open(pdf_path)`, the page loop,
`doc.close()`, and the `except Exception as e: raise Exception(f"解析失败: {str(e)}")`
wrapper.  `doc.close()` sits after the loop on the straight-line path only:
an exception raised after a successful open propagates to the `except`
block without any close. -/
def parse_pdf_simple (lib : String → Except String Doc) (pdf_path : String) :
    ExtractOutcome :=
  match lib pdf_path with
  | .error e =>
    { result := .error ("解析失败: " ++ e), opened := false, closed := false }
  | .ok doc =>
    match processPages 0 doc.pages with
    | .error e =>
      { result := .error ("解析失败: " ++ e), opened := true, closed := false }
    | .ok pages =>
      { result := .ok { pageCount := pages.length, pages := pages }
        opened := true
        closed := true }

/-- Response of the `/parse` handler: HTTP status, the body's `error` entry
and the body's `structure` entry (`none` models an absent key). -/
structure HttpResponse where
  status : Nat
  error : Option String
  struct : Option ParseResult
deriving Repr, DecidableEq

/-- The parsed request body as the handler sees it: `none` models
`request.json` being `None` (absent body / JSON `null`); `some pp` models a
JSON object whose `data.get('pdf_path')` is `pp`. -/
def ReqBody : Type := Option (Option String)

/-- The `POST /parse` handler `parse_pdf`.  Returns the response paired with
whether `parse_pdf_simple` was invoked.  When the parsed body is `None`,
`data.get('pdf_path')` raises `AttributeError`, which the catch-all turns
into a 500 response carrying `str(e)`. -/
def parse_pdf (lib : String → Except String Doc) (data : ReqBody) :
    HttpResponse × Bool :=
  match data with
  | none =>
    ({ status := 500
       error := some "'NoneType' object has no attribute 'get'"
       struct := none }, false)
  | some none =>
    ({ status := 400, error := some "PDF path required", struct := none }, false)
  | some (some path) =>
    if path = "" then
      ({ status := 400, error := some "PDF path required", struct := none }, false)
    else
      match (parse_pdf_simple lib path).result with
      | .ok st => ({ status := 200, error := none, struct := some st }, true)
      | .error e => ({ status := 500, error := some e, struct := none }, true)


/-! ### Auxiliary definitions -/

/-- Numeric value of a decimal digit character; left inverse of
`Nat.digitChar` on `0`–`9`. -/
def digitVal (c : Char) : Nat :=
  if c = '0' then 0 else if c = '1' then 1 else if c = '2' then 2
  else if c = '3' then 3 else if c = '4' then 4 else if c = '5' then 5
  else if c = '6' then 6 else if c = '7' then 7 else if c = '8' then 8
  else if c = '9' then 9 else 0

/-- Value of a most-significant-digit-first decimal digit list. -/
def digitsVal (l : List Char) : Nat :=
  l.foldl (fun a c => 10 * a + digitVal c) 0

/-- Concatenation of a list of strings, in order. -/
def concatStrings : List String → String
  | [] => ""
  | s :: rest => s ++ concatStrings rest

/-- Restatement of the spec's description of a text block's content:
“concatenate the text of every span within every line of the block,
inserting a newline after each line's spans”. -/
def specText (block : Block) : String :=
  concatStrings ((block.lines.getD []).map
    (fun line =>
      concatStrings ((line.spans.getD []).map (fun s => s.text.getD "")) ++ "\n"))

/-- A well-formed bounding box: exactly 4 numeric components with
`x0 ≤ x1` and `y0 ≤ y1`. -/
def goodBBox (bb : List ℚ) : Prop :=
  bb.length = 4 ∧ bb.getD 0 0 ≤ bb.getD 2 0 ∧ bb.getD 1 0 ≤ bb.getD 3 0

instance (bb : List ℚ) : Decidable (goodBBox bb) := by
  unfold goodBBox; infer_instance

/-! ### Concrete documents and library behaviours used as test inputs -/

/-- A one-paragraph text block. -/
def exTextBlock : Block :=
  { btype := some 0
    bbox := [72, 72, 300, 100]
    lines := some [{ spans := some [{ text := some "Hello " }, { text := some "world" }] },
                   { spans := some [{ text := some "second line" }] }] }

/-- A whitespace-only text block (dropped by the script). -/
def exEmptyTextBlock : Block :=
  { btype := some 0
    bbox := [0, 0, 5, 5]
    lines := some [{ spans := some [{ text := some "  " }] }] }

/-- An image block. -/
def exImageBlock : Block :=
  { btype := some 1, bbox := [10, 20, 110, 220], lines := none }

/-- A block of a kind that is neither text nor image. -/
def exOtherBlock : Block :=
  { btype := some 2, bbox := [1, 1, 2, 2], lines := none }

/-- A page holding the four blocks above. -/
def exPage : Page :=
  { width := 612
    height := 792
    get_text := .ok [exTextBlock, exEmptyTextBlock, exImageBlock, exOtherBlock] }

/-- A blank page. -/
def exBlankPage : Page :=
  { width := 612, height := 792, get_text := .ok [] }

/-- A two-page document: content on page 1, page 2 blank. -/
def exDoc : Doc := { pages := [exPage, exBlankPage] }

/-- A document that opens fine but whose only page makes
`page.get_text` raise. -/
def exBadDoc : Doc :=
  { pages := [{ width := 10, height := 10, get_text := .error "MuPDF error" }] }

/-- A library behaviour: `good.pdf` opens as `exDoc`, `torn.pdf` opens as
`exBadDoc`, and any other path fails to open. -/
def exLib : String → Except String Doc := fun p =>
  if p = "good.pdf" then .ok exDoc
  else if p = "torn.pdf" then .ok exBadDoc
  else .error ("no such file: " ++ p)

/-- The structure the script returns for `exDoc`. -/
def exResult : ParseResult :=
  { pageCount := 2
    pages := [{ pageIndex := 1, width := 612, height := 792,
                blocks := [{ id := "el_1_0", etype := "text", bbox := [72, 72, 300, 100],
                             pageIndex := 1, content := some "Hello world\nsecond line" },
                           { id := "el_1_2", etype := "image", bbox := [10, 20, 110, 220],
                             pageIndex := 1, content := none }] },
              { pageIndex := 2, width := 612, height := 792, blocks := [] }] }

/-! ### Injectivity of the decimal rendering used inside `elId` -/

lemma digitVal_digitChar (d : Nat) (h : d < 10) :
    digitVal (Nat.digitChar d) = d := by
  interval_cases d <;> rfl

lemma toDigitsCore_foldl (fuel : Nat) :
    ∀ n ds a, n < fuel →
      (Nat.toDigitsCore 10 fuel n ds).foldl (fun a c => 10 * a + digitVal c) a =
        ds.foldl (fun a c => 10 * a + digitVal c)
          (a * 10 ^ (Nat.log 10 n + 1) + n) := by
  induction fuel with
  | zero => exact fun n ds a h => absurd h (Nat.not_lt_zero n)
  | succ f ih =>
    intro n ds a h
    simp only [Nat.toDigitsCore]
    by_cases h10 : n / 10 = 0
    · rw [if_pos h10]
      have hn : n < 10 := by omega
      simp only [List.foldl]
      congr 1
      rw [Nat.mod_eq_of_lt hn, digitVal_digitChar n hn,
        Nat.log_eq_zero_iff.mpr (Or.inl hn)]
      have hp : (10 : Nat) ^ (0 + 1) = 10 := by norm_num
      rw [hp]; omega
    · rw [if_neg h10]
      have hge : 10 ≤ n := by omega
      have hlt : n / 10 < f := by omega
      rw [ih (n / 10) _ a hlt]
      simp only [List.foldl]
      congr 1
      rw [digitVal_digitChar (n % 10) (Nat.mod_lt n (by norm_num))]
      have hlog : Nat.log 10 (n / 10) + 1 = Nat.log 10 n := by
        have h1 : 0 < Nat.log 10 n := Nat.log_pos (by norm_num) hge
        rw [Nat.log_div_base]; omega
      rw [← hlog]
      have hdm : 10 * (n / 10) + n % 10 = n := Nat.div_add_mod n 10
      generalize Nat.log 10 (n / 10) = k
      have hp : (10 : Nat) ^ (k + 1 + 1) = 10 ^ (k + 1) * 10 := pow_succ 10 (k + 1)
      rw [hp]
      generalize (10 : Nat) ^ (k + 1) = M
      calc 10 * (a * M + n / 10) + n % 10
          = a * (M * 10) + (10 * (n / 10) + n % 10) := by ring
        _ = a * (M * 10) + n := by rw [hdm]

lemma digitsVal_toDigits (n : Nat) : digitsVal (Nat.toDigits 10 n) = n := by
  unfold digitsVal Nat.toDigits
  rw [toDigitsCore_foldl (n + 1) n [] 0 (Nat.lt_succ_self n)]
  simp

lemma toDigits_inj {m n : Nat} (h : Nat.toDigits 10 m = Nat.toDigits 10 n) :
    m = n := by
  have h2 := congrArg digitsVal h
  rwa [digitsVal_toDigits, digitsVal_toDigits] at h2

/-- `elId` is injective in the block index, for a fixed page number. -/
lemma elId_inj (p : Nat) {i j : Nat} (h : elId p i = elId p j) : i = j := by
  unfold elId at h
  have hd := congrArg String.data h
  simp only [String.data_append, List.append_assoc] at hd
  have h1 := List.append_cancel_left hd
  have h2 := List.append_cancel_left h1
  have h3 := List.append_cancel_left h2
  exact toDigits_inj h3

/-! ### Unfolding lemmas for the loops -/

lemma processBlocks_cons_some (page_num idx : Nat) (b : Block) (rest : List Block)
    (e : Element) (h : processBlock page_num idx b = some e) :
    processBlocks page_num idx (b :: rest) =
      e :: processBlocks page_num (idx + 1) rest := by
  simp only [processBlocks, h]

lemma processBlocks_cons_none (page_num idx : Nat) (b : Block) (rest : List Block)
    (h : processBlock page_num idx b = none) :
    processBlocks page_num idx (b :: rest) = processBlocks page_num (idx + 1) rest := by
  simp only [processBlocks, h]

/-- Field content of any element emitted by the block loop body. -/
lemma processBlock_some (page_num idx : Nat) (b : Block) (e : Element)
    (h : processBlock page_num idx b = some e) :
    e.id = elId (page_num + 1) idx ∧ e.bbox = b.bbox ∧ e.pageIndex = page_num + 1 ∧
      ((b.btype = some 0 ∧ e.etype = "text" ∧ e.content = some (pyStrip (blockText b))) ∨
        (b.btype = some 1 ∧ e.etype = "image" ∧ e.content = none)) := by
  simp only [processBlock] at h
  split at h
  case isTrue h0 =>
    split at h
    case isTrue hne =>
      simp only [Option.some.injEq] at h
      subst h
      exact ⟨rfl, rfl, rfl, Or.inl ⟨h0, rfl, rfl⟩⟩
    case isFalse hne => simp at h
  case isFalse h0 =>
    split at h
    case isTrue h1 =>
      simp only [Option.some.injEq] at h
      subst h
      exact ⟨rfl, rfl, rfl, Or.inr ⟨h1, rfl, rfl⟩⟩
    case isFalse h1 => simp at h

/-- Every element produced by the block loop comes from `processBlock` applied
to some block of the raw list. -/
lemma processBlocks_mem (page_num : Nat) :
    ∀ (start : Nat) (blocks : List Block) (e : Element),
      e ∈ processBlocks page_num start blocks →
        ∃ idx b, b ∈ blocks ∧ processBlock page_num idx b = some e := by
  intro start blocks
  induction blocks generalizing start with
  | nil => intro e he; simp [processBlocks] at he
  | cons b rest ih =>
    intro e he
    cases hpb : processBlock page_num start b with
    | none =>
      rw [processBlocks_cons_none page_num start b rest hpb] at he
      obtain ⟨idx, b2, hb2, hp⟩ := ih (start + 1) e he
      exact ⟨idx, b2, List.mem_cons_of_mem b hb2, hp⟩
    | some e0 =>
      rw [processBlocks_cons_some page_num start b rest e0 hpb] at he
      rcases List.mem_cons.mp he with h | h
      · subst h; exact ⟨start, b, List.mem_cons_self b rest, hpb⟩
      · obtain ⟨idx, b2, hb2, hp⟩ := ih (start + 1) e h
        exact ⟨idx, b2, List.mem_cons_of_mem b hb2, hp⟩

/-- Every element produced by the block loop with starting index `start`
carries an `id` of the form `elId (page_num + 1) idx` with `start ≤ idx`. -/
lemma processBlocks_id_range (page_num : Nat) :
    ∀ (start : Nat) (blocks : List Block) (e : Element),
      e ∈ processBlocks page_num start blocks →
        ∃ idx, start ≤ idx ∧ e.id = elId (page_num + 1) idx := by
  intro start blocks
  induction blocks generalizing start with
  | nil => intro e he; simp [processBlocks] at he
  | cons b rest ih =>
    intro e he
    cases hpb : processBlock page_num start b with
    | none =>
      rw [processBlocks_cons_none page_num start b rest hpb] at he
      obtain ⟨idx, h1, h2⟩ := ih (start + 1) e he
      exact ⟨idx, by omega, h2⟩
    | some e0 =>
      rw [processBlocks_cons_some page_num start b rest e0 hpb] at he
      rcases List.mem_cons.mp he with h | h
      · subst h
        exact ⟨start, le_refl start, (processBlock_some page_num start b e hpb).1⟩
      · obtain ⟨idx, h1, h2⟩ := ih (start + 1) e h
        exact ⟨idx, by omega, h2⟩

/-- The ids emitted by the block loop are pairwise distinct. -/
lemma processBlocks_id_nodup (page_num : Nat) :
    ∀ (start : Nat) (blocks : List Block),
      ((processBlocks page_num start blocks).map Element.id).Nodup := by
  intro start blocks
  induction blocks generalizing start with
  | nil => simp [processBlocks]
  | cons b rest ih =>
    cases hpb : processBlock page_num start b with
    | none =>
      rw [processBlocks_cons_none page_num start b rest hpb]
      exact ih (start + 1)
    | some e =>
      rw [processBlocks_cons_some page_num start b rest e hpb]
      simp only [List.map_cons, List.nodup_cons]
      refine ⟨?_, ih (start + 1)⟩
      intro hmem
      obtain ⟨e2, he2, hid⟩ := List.mem_map.mp hmem
      obtain ⟨idx, hge, hid2⟩ := processBlocks_id_range page_num (start + 1) rest e2 he2
      have h1 : e.id = elId (page_num + 1) start :=
        (processBlock_some page_num start b e hpb).1
      have heq : elId (page_num + 1) idx = elId (page_num + 1) start := by
        rw [← h1, ← hid2, hid]
      have := elId_inj (page_num + 1) heq
      omega

/-! ### Page-level lemmas -/

lemma processPage_ok (page_num : Nat) (page : Page) (po : PageOut)
    (h : processPage page_num page = .ok po) :
    ∃ blocks, page.get_text = .ok blocks ∧
      po = { pageIndex := page_num + 1, width := page.width, height := page.height,
             blocks := processBlocks page_num 0 blocks } := by
  unfold processPage at h
  cases hg : page.get_text with
  | error e => rw [hg] at h; exact Except.noConfusion h
  | ok blocks =>
    simp only [hg, Except.ok.injEq] at h
    exact ⟨blocks, rfl, h.symm⟩

lemma processPages_cons_ok (page_num : Nat) (p : Page) (rest : List Page)
    (po : PageOut) (outs : List PageOut)
    (h1 : processPage page_num p = .ok po)
    (h2 : processPages (page_num + 1) rest = .ok outs) :
    processPages page_num (p :: rest) = .ok (po :: outs) := by
  simp only [processPages, h1, h2]

/-- Success of the page loop determines the length of the output and the
1-based `pageIndex` of every entry. -/
lemma processPages_length_index :
    ∀ (start : Nat) (ps : List Page) (outs : List PageOut),
      processPages start ps = .ok outs →
      outs.length = ps.length ∧
        ∀ i (hi : i < outs.length), (outs.get ⟨i, hi⟩).pageIndex = start + i + 1 := by
  intro start ps
  induction ps generalizing start with
  | nil =>
    intro outs h
    simp only [processPages, Except.ok.injEq] at h
    subst h
    exact ⟨rfl, fun i hi => absurd hi (by simp)⟩
  | cons p rest ih =>
    intro outs h
    simp only [processPages] at h
    cases hp : processPage start p with
    | error e => simp only [hp] at h; exact Except.noConfusion h
    | ok po =>
      simp only [hp] at h
      cases hr : processPages (start + 1) rest with
      | error e => simp only [hr] at h; exact Except.noConfusion h
      | ok outs2 =>
        simp only [hr, Except.ok.injEq] at h
        subst h
        obtain ⟨hlen, hidx⟩ := ih (start + 1) outs2 hr
        refine ⟨by simp [hlen], ?_⟩
        intro i hi
        cases i with
        | zero =>
          obtain ⟨blocks, hg, hpo⟩ := processPage_ok start p po hp
          subst hpo
          simp
        | succ n =>
          have hn : n < outs2.length := by
            simpa [Nat.succ_lt_succ_iff] using hi
          have := hidx n hn
          simp only [List.get, this]
          omega

/-- Every entry of a successful page-loop output comes from `processPage`
applied to some page of the document. -/
lemma processPages_mem :
    ∀ (start : Nat) (ps : List Page) (outs : List PageOut),
      processPages start ps = .ok outs → ∀ po ∈ outs,
        ∃ k page, page ∈ ps ∧ processPage k page = .ok po := by
  intro start ps
  induction ps generalizing start with
  | nil =>
    intro outs h po hpo
    simp only [processPages, Except.ok.injEq] at h
    subst h
    simp at hpo
  | cons p rest ih =>
    intro outs h po hpo
    simp only [processPages] at h
    cases hp : processPage start p with
    | error e => simp only [hp] at h; exact Except.noConfusion h
    | ok po0 =>
      simp only [hp] at h
      cases hr : processPages (start + 1) rest with
      | error e => simp only [hr] at h; exact Except.noConfusion h
      | ok outs2 =>
        simp only [hr, Except.ok.injEq] at h
        subst h
        rcases List.mem_cons.mp hpo with h2 | h2
        · subst h2; exact ⟨start, p, List.mem_cons_self p rest, hp⟩
        · obtain ⟨k, page, hpage, hok⟩ := ih (start + 1) outs2 hr po h2
          exact ⟨k, page, List.mem_cons_of_mem p hpage, hok⟩

/-! ### The block-text concatenation, and its spec-side restatement -/

lemma foldl_append_concat {α : Type} (g : α → String) :
    ∀ (l : List α) (t : String),
      l.foldl (fun acc x => acc ++ g x) t = t ++ concatStrings (l.map g) := by
  intro l
  induction l with
  | nil => intro t; simp [concatStrings]
  | cons x xs ih =>
    intro t
    simp only [List.foldl, List.map, concatStrings, ih, String.append_assoc]

/-- The accumulating `text` loop of the script computes exactly the spec's
line/span concatenation. -/
lemma blockText_eq_specText (block : Block) : blockText block = specText block := by
  unfold blockText specText
  rw [List.foldl_ext _ (fun t line =>
      t ++ (concatStrings ((line.spans.getD []).map (fun s => s.text.getD "")) ++ "\n"))]
  · have h := foldl_append_concat
      (fun line =>
        concatStrings ((line.spans.getD []).map (fun s => s.text.getD "")) ++ "\n")
      (block.lines.getD []) ""
    simpa using h
  · intro t line _
    rw [foldl_append_concat (fun s => s.text.getD "") (line.spans.getD []) t,
      String.append_assoc]

/-! ### Shape of `parse_pdf_simple` outcomes -/

/-- Every error `parse_pdf_simple` raises wraps an underlying cause with the
`解析失败: ` prefix. -/
lemma parse_pdf_simple_error_wrapped (lib : String → Except String Doc)
    (path e : String)
    (h : (parse_pdf_simple lib path).result = .error e) :
    ∃ cause, e = "解析失败: " ++ cause := by
  unfold parse_pdf_simple at h
  cases hl : lib path with
  | error e2 =>
    simp only [hl, Except.error.injEq] at h
    exact ⟨e2, h.symm⟩
  | ok doc =>
    cases hp : processPages 0 doc.pages with
    | error e2 =>
      simp only [hl, hp, Except.error.injEq] at h
      exact ⟨e2, h.symm⟩
    | ok outs => simp only [hl, hp] at h; exact Except.noConfusion h

/-- A successful `parse_pdf_simple` result comes from a successful open and a
successful page loop, and is assembled from the page-loop output. -/
lemma parse_pdf_simple_ok (lib : String → Except String Doc)
    (path : String) (r : ParseResult)
    (h : (parse_pdf_simple lib path).result = .ok r) :
    ∃ doc outs, lib path = .ok doc ∧ processPages 0 doc.pages = .ok outs ∧
      r = { pageCount := outs.length, pages := outs } := by
  unfold parse_pdf_simple at h
  cases hl : lib path with
  | error e => simp only [hl] at h; exact Except.noConfusion h
  | ok doc =>
    cases hp : processPages 0 doc.pages with
    | error e => simp only [hl, hp] at h; exact Except.noConfusion h
    | ok outs =>
      simp only [hl, hp, Except.ok.injEq] at h
      exact ⟨doc, outs, rfl, hp, h.symm⟩

/-! ### Claims -/

/-- C1: the claim states that the extraction function closes the opened
document on every exit path.  The code contradicts it: `doc.close()` is only
reached on the straight-line success path, so when any extraction step after
a successful open fails, the function raises with the document still open.
This theorem evaluates the code at such an input: the library opens
`torn.pdf` successfully but the page's `get_text` raises; the call ends in
the wrapped error with `opened = true` and `closed = false`. -/
theorem C1_close_skipped_on_failure :
    (parse_pdf_simple exLib "torn.pdf").opened = true ∧
    (parse_pdf_simple exLib "torn.pdf").closed = false ∧
    (parse_pdf_simple exLib "torn.pdf").result = .error "解析失败: MuPDF error" :=
  ⟨rfl, rfl, rfl⟩

/-- C2: whenever extraction fails for a non-empty `pdf_path`, `POST /parse`
responds 500 with body `{"error": <wrapped message>}`, no `structure` key,
and the message wraps the underlying cause with the `解析失败: ` prefix. -/
theorem C2_extraction_failure_500 (lib : String → Except String Doc)
    (path e : String) (hpath : path ≠ "")
    (h : (parse_pdf_simple lib path).result = .error e) :
    (parse_pdf lib (some (some path))).1 =
      { status := 500, error := some e, struct := none } ∧
    ∃ cause, e = "解析失败: " ++ cause := by
  constructor
  · simp only [parse_pdf, if_neg hpath, h]
  · exact parse_pdf_simple_error_wrapped lib path e h

theorem C2_witness :
    ("missing.pdf" : String) ≠ "" ∧
    (parse_pdf_simple exLib "missing.pdf").result =
      .error "解析失败: no such file: missing.pdf" ∧
    ((parse_pdf exLib (some (some "missing.pdf"))).1 =
        { status := 500, error := some "解析失败: no such file: missing.pdf",
          struct := none } ∧
      ∃ cause, "解析失败: no such file: missing.pdf" = "解析失败: " ++ cause) :=
  ⟨by decide, rfl,
    C2_extraction_failure_500 exLib "missing.pdf"
      "解析失败: no such file: missing.pdf" (by decide) rfl⟩

/-- C3: a request whose body is a JSON object with `pdf_path` missing or
empty gets HTTP 400 with body `{"error": "PDF path required"}`, and the
extraction function is never invoked (the second component of `parse_pdf`
is `false`). -/
theorem C3_missing_path_400 (lib : String → Except String Doc)
    (pp : Option String) (h : pp = none ∨ pp = some "") :
    parse_pdf lib (some pp) =
      ({ status := 400, error := some "PDF path required", struct := none }, false) := by
  rcases h with h | h <;> subst h <;> simp [parse_pdf]

theorem C3_witness :
    ((some "" : Option String) = none ∨ (some "" : Option String) = some "") ∧
    parse_pdf exLib (some (some "")) =
      ({ status := 400, error := some "PDF path required", struct := none }, false) :=
  ⟨Or.inr rfl, C3_missing_path_400 exLib (some "") (Or.inr rfl)⟩

/-- C4: for a block of text kind, the emitted content is the spec's
concatenation (every span's text within every line, a newline after each
line's spans) stripped of surrounding whitespace; a text block is emitted iff
that stripped text is non-empty, and empty ones are silently dropped. -/
theorem C4_text_block_content (page_num idx : Nat) (block : Block)
    (h0 : block.btype = some 0) :
    (processBlock page_num idx block = none ↔ pyStrip (specText block) = "") ∧
    ∀ e, processBlock page_num idx block = some e →
      e.etype = "text" ∧ e.content = some (pyStrip (specText block)) := by
  have hbs := blockText_eq_specText block
  constructor
  · unfold processBlock
    rw [if_pos h0, ← hbs]
    by_cases ht : pyStrip (blockText block) = ""
    · simp [ht]
    · simp [ht]
  · intro e he
    rcases processBlock_some page_num idx block e he with ⟨-, -, -, h4⟩
    rcases h4 with ⟨-, het, hc⟩ | ⟨h1, -, -⟩
    · rw [hbs] at hc
      exact ⟨het, hc⟩
    · rw [h0] at h1
      simp at h1

theorem C4_witness :
    (exTextBlock.btype = some 0 ∧
      ((processBlock 0 0 exTextBlock = none ↔ pyStrip (specText exTextBlock) = "") ∧
        ∀ e, processBlock 0 0 exTextBlock = some e →
          e.etype = "text" ∧ e.content = some (pyStrip (specText exTextBlock)))) ∧
    (exEmptyTextBlock.btype = some 0 ∧
      (processBlock 0 1 exEmptyTextBlock = none ↔
        pyStrip (specText exEmptyTextBlock) = "")) :=
  ⟨⟨rfl, C4_text_block_content 0 0 exTextBlock rfl⟩,
    ⟨rfl, (C4_text_block_content 0 1 exEmptyTextBlock rfl).1⟩⟩

/-- C6: a block whose kind is neither text (`0`) nor image (`1`) produces
nothing, is no error, and the loop continues with the remaining blocks at the
next index. -/
theorem C6_other_kinds_skipped (page_num idx : Nat) (b : Block)
    (h0 : b.btype ≠ some 0) (h1 : b.btype ≠ some 1) :
    processBlock page_num idx b = none ∧
      ∀ rest, processBlocks page_num idx (b :: rest) =
        processBlocks page_num (idx + 1) rest := by
  have hn : processBlock page_num idx b = none := by
    unfold processBlock
    rw [if_neg h0, if_neg h1]
  exact ⟨hn, fun rest => processBlocks_cons_none page_num idx b rest hn⟩

theorem C6_witness :
    exOtherBlock.btype ≠ some 0 ∧ exOtherBlock.btype ≠ some 1 ∧
    (processBlock 0 3 exOtherBlock = none ∧
      ∀ rest, processBlocks 0 3 (exOtherBlock :: rest) = processBlocks 0 4 rest) :=
  ⟨by decide, by decide,
    C6_other_kinds_skipped 0 3 exOtherBlock (by decide) (by decide)⟩

/-- C7: every emitted block's `id` is `"el_<pageNumber>_<index>"` with
`pageNumber` the 1-based page index and `index` the block's zero-based
position in the raw block list, and the ids emitted for one page are
pairwise distinct. -/
theorem C7_ids_format_and_unique :
    (∀ (page_num idx : Nat) (b : Block) (e : Element),
        processBlock page_num idx b = some e →
          e.id = "el_" ++ toString (page_num + 1) ++ "_" ++ toString idx) ∧
    ∀ (page_num : Nat) (blocks : List Block),
      ((processBlocks page_num 0 blocks).map Element.id).Nodup := by
  constructor
  · intro page_num idx b e h
    exact (processBlock_some page_num idx b e h).1
  · intro page_num blocks
    exact processBlocks_id_nodup page_num 0 blocks

theorem C7_witness :
    ∃ e, processBlock 0 2 exImageBlock = some e ∧
      e.id = "el_" ++ toString (0 + 1) ++ "_" ++ toString 2 :=
  ⟨_, rfl, C7_ids_format_and_unique.1 0 2 exImageBlock _ rfl⟩

/-- C10: when the parsed request body is `None` (absent body or JSON
`null`), reading `pdf_path` raises inside the handler and the catch-all
yields HTTP 500 with an `error` key and no call to the extraction function —
not the 400 response used for a present-but-missing/empty `pdf_path`. -/
theorem C10_null_body_500 (lib : String → Except String Doc) :
    parse_pdf lib none =
      ({ status := 500, error := some "'NoneType' object has no attribute 'get'",
         struct := none }, false) ∧
    (parse_pdf lib none).1.status ≠ 400 :=
  ⟨rfl, (by decide : (500 : Nat) ≠ 400)⟩

/-- C5: when the library opens the document and extraction succeeds, the
result's `pageCount` equals the library's page count, `pages` has exactly
that length in document order, and each page's `pageIndex` is its 1-based
ordinal position. -/
theorem C5_page_count_and_order (lib : String → Except String Doc)
    (path : String) (doc : Doc) (r : ParseResult)
    (hopen : lib path = .ok doc)
    (hok : (parse_pdf_simple lib path).result = .ok r) :
    r.pageCount = doc.pages.length ∧ r.pages.length = doc.pages.length ∧
      ∀ i (hi : i < r.pages.length), (r.pages.get ⟨i, hi⟩).pageIndex = i + 1 := by
  obtain ⟨doc2, outs, hopen2, hpp, hr⟩ := parse_pdf_simple_ok lib path r hok
  rw [hopen] at hopen2
  have hd : doc = doc2 := Except.ok.inj hopen2
  subst hd
  obtain ⟨hlen, hidx⟩ := processPages_length_index 0 doc.pages outs hpp
  subst hr
  refine ⟨hlen, hlen, ?_⟩
  intro i hi
  exact (hidx i hi).trans (by omega)

theorem C5_witness :
    exLib "good.pdf" = Except.ok exDoc ∧
    (parse_pdf_simple exLib "good.pdf").result = Except.ok exResult ∧
    (exResult.pageCount = exDoc.pages.length ∧
      exResult.pages.length = exDoc.pages.length ∧
      ∀ i (hi : i < exResult.pages.length),
        (exResult.pages.get ⟨i, hi⟩).pageIndex = i + 1) :=
  ⟨rfl, rfl, C5_page_count_and_order exLib "good.pdf" exDoc exResult rfl rfl⟩

/-- C8: assuming every bounding box the library reports for the document is
a well-formed 4-tuple with `x0 ≤ x1` and `y0 ≤ y1`, every block of the
output has a well-formed `bbox` (the script copies the library's box
through unchanged). -/
theorem C8_bbox_well_formed (lib : String → Except String Doc)
    (path : String) (doc : Doc) (r : ParseResult)
    (hopen : lib path = .ok doc)
    (hwf : ∀ page ∈ doc.pages, ∀ blocks, page.get_text = .ok blocks →
        ∀ b ∈ blocks, goodBBox b.bbox)
    (hok : (parse_pdf_simple lib path).result = .ok r) :
    ∀ po ∈ r.pages, ∀ e ∈ po.blocks, goodBBox e.bbox := by
  obtain ⟨doc2, outs, hopen2, hpp, hr⟩ := parse_pdf_simple_ok lib path r hok
  rw [hopen] at hopen2
  have hd : doc = doc2 := Except.ok.inj hopen2
  subst hd
  subst hr
  intro po hpo e he
  have hpo2 : po ∈ outs := hpo
  obtain ⟨k, page, hpage, hok2⟩ := processPages_mem 0 doc.pages outs hpp po hpo2
  obtain ⟨blocks, hg, hpo3⟩ := processPage_ok k page po hok2
  subst hpo3
  have he2 : e ∈ processBlocks k 0 blocks := he
  obtain ⟨idx, b, hb, hpb⟩ := processBlocks_mem k 0 blocks e he2
  have hbbox : e.bbox = b.bbox := (processBlock_some k idx b e hpb).2.1
  rw [hbbox]
  exact hwf page hpage blocks hg b hb

theorem C8_witness :
    exLib "good.pdf" = Except.ok exDoc ∧
    (∀ page ∈ exDoc.pages, ∀ blocks, page.get_text = .ok blocks →
        ∀ b ∈ blocks, goodBBox b.bbox) ∧
    (parse_pdf_simple exLib "good.pdf").result = Except.ok exResult ∧
    ∀ po ∈ exResult.pages, ∀ e ∈ po.blocks, goodBBox e.bbox := by
  have hwf : ∀ page ∈ exDoc.pages, ∀ blocks, page.get_text = .ok blocks →
      ∀ b ∈ blocks, goodBBox b.bbox := by
    intro page hpage blocks hg b hb
    fin_cases hpage
    · have hbl : [exTextBlock, exEmptyTextBlock, exImageBlock, exOtherBlock] = blocks :=
        Except.ok.inj hg
      subst hbl
      fin_cases hb <;> decide
    · have hbl : ([] : List Block) = blocks := Except.ok.inj hg
      subst hbl
      exact absurd hb (List.not_mem_nil b)
  exact ⟨rfl, hwf, rfl,
    C8_bbox_well_formed exLib "good.pdf" exDoc exResult rfl hwf rfl⟩

/-- C9: every emitted image block carries no `content` entry (its fields are
exactly `id`, `type`, `bbox`, `pageIndex`), for every input document. -/
theorem C9_image_no_content (lib : String → Except String Doc)
    (path : String) (r : ParseResult)
    (hok : (parse_pdf_simple lib path).result = .ok r) :
    ∀ po ∈ r.pages, ∀ e ∈ po.blocks, e.etype = "image" → e.content = none := by
  obtain ⟨doc, outs, hopen, hpp, hr⟩ := parse_pdf_simple_ok lib path r hok
  subst hr
  intro po hpo e he himg
  have hpo2 : po ∈ outs := hpo
  obtain ⟨k, page, hpage, hok2⟩ := processPages_mem 0 doc.pages outs hpp po hpo2
  obtain ⟨blocks, hg, hpo3⟩ := processPage_ok k page po hok2
  subst hpo3
  have he2 : e ∈ processBlocks k 0 blocks := he
  obtain ⟨idx, b, hb, hpb⟩ := processBlocks_mem k 0 blocks e he2
  rcases (processBlock_some k idx b e hpb).2.2.2 with ⟨-, het, -⟩ | ⟨-, -, hc⟩
  · rw [het] at himg
    exact absurd himg (by decide)
  · exact hc

theorem C9_witness :
    (parse_pdf_simple exLib "good.pdf").result = Except.ok exResult ∧
    ∀ po ∈ exResult.pages, ∀ e ∈ po.blocks, e.etype = "image" → e.content = none :=
  ⟨rfl, C9_image_no_content exLib "good.pdf" exResult rfl⟩
